import Mathlib

/-!
Verification development for the AIMI repository.

Shallow embedding of the code paths relevant to the background
code-generation pipeline (`src/inngest/functions.ts`, `src/inngest/utils.ts`),
the tRPC projects router (`src/modules/projects/server/procedures.ts`) and
the credit-consumption helper (`src/lib/usage.ts`).

JavaScript values are modelled as follows: strings are Lean `String`s, a
JS object used as a string-keyed map is an association list `FileMap`
(insertion order preserved, keys distinct when built by `FileMap.set`),
a thrown JS runtime error is the `Except.error` branch of an `Except`,
and JS truthiness of a string is the test against `""`.
-/

/-- Runtime failures of the embedded JS code. `typeErrorUndefined` stands for
a TypeError raised by reading a property of `undefined`. -/
inductive JsError where
  | typeErrorUndefined
deriving DecidableEq, Repr

/-- Content of an agent-kit message as seen by the inngest utils: a plain
string, an array of text parts (abstracted to their `text` fields), or
absent (`undefined`, as on a tool-call message cast to `TextMessage`). -/
inductive MsgContent where
  | str (s : String)
  | arr (l : List String)
  | undef
deriving DecidableEq, Repr

/-- An agent-kit `Message` as the inngest utils consume it: a `type`
discriminant ("text", "tool_call", "tool_result"), a `role`
("user", "assistant", "tool_result") and the content. -/
structure AgentMessage where
  type : String
  role : String
  content : MsgContent
deriving DecidableEq, Repr

/-- JS truthiness of `message?.content`: `undefined` and the empty string
are falsy, any array (even empty) is truthy. -/
def MsgContent.truthy : MsgContent → Bool
  | .str s => s ≠ ""
  | .arr _ => true
  | .undef => false

/-- The text extracted from a truthy content by `lastAgentTextMessageContent`:
a string is returned as is, an array is mapped to its text fields and
joined with `""`. -/
def MsgContent.toText : MsgContent → String
  | .str s => s
  | .arr l => String.join l
  | .undef => ""

/-- `lastAgentTextMessageContent` from `src/inngest/utils.ts`: find the last
message whose role is "assistant" (`findLastIndex`), cast it to a text
message and return its content if truthy, `undefined` otherwise. -/
def lastAgentTextMessageContent (output : List AgentMessage) : Option String :=
  match output.reverse.find? (fun m => m.role == "assistant") with
  | none => none
  | some m => if m.content.truthy then some m.content.toText else none

/-- `parseAgentOutput` from `src/inngest/utils.ts`: reads `value[0].type`
(a TypeError when the list is empty), returns "Fragment" for a non-text
first message, and otherwise the first message's content with array
content joined by `""`. A text message always carries content in the
TypeScript types; the `undef` case is unreachable there and modelled as
the same property-read failure. -/
def parseAgentOutput (value : List AgentMessage) : Except JsError String :=
  match value with
  | [] => .error .typeErrorUndefined
  | output :: _ =>
    if output.type = "text" then
      match output.content with
      | .str s => .ok s
      | .arr l => .ok (String.join l)
      | .undef => .error .typeErrorUndefined
    else
      .ok "Fragment"

/-- Does `pat` occur at the start of `l`? -/
def listHasPrefix : List Char → List Char → Bool
  | _, [] => true
  | [], _ :: _ => false
  | c :: cs, p :: ps => c == p && listHasPrefix cs ps

/-- Does `pat` occur anywhere in `l`? -/
def listContainsSub (pat : List Char) : List Char → Bool
  | [] => pat.isEmpty
  | c :: cs => listHasPrefix (c :: cs) pat || listContainsSub pat cs

/-- JS `String.prototype.includes`: the pattern occurs as a substring. -/
def jsIncludes (s pat : String) : Bool := listContainsSub pat.data s.data

/-- A JS object used as a map from file path to file content, in insertion
order (the `files` field of the agent state and the sandbox file system). -/
abbrev FileMap := List (String × String)

/-- Property lookup `m[k]` on the object. -/
def FileMap.lookup (m : FileMap) (k : String) : Option String :=
  match m with
  | [] => none
  | (k', v) :: rest => if k = k' then some v else FileMap.lookup rest k

/-- Property assignment `m[k] = v` on the object: an existing key keeps its
position and gets the new value, a new key is appended. -/
def FileMap.set (m : FileMap) (k v : String) : FileMap :=
  match m with
  | [] => [(k, v)]
  | (k', v') :: rest =>
    if k = k' then (k', v) :: rest else (k', v') :: FileMap.set rest k v

/-- The keys of the object, in order (`Object.keys`). -/
def FileMap.keys (m : FileMap) : List String := m.map Prod.fst

/-- The mutable shared state of the agent network
(`interface AgentState` in `src/inngest/functions.ts`). -/
structure AgentState where
  summary : String
  files : FileMap
deriving DecidableEq, Repr

/-- The completion marker the coding agent emits. -/
def taskSummaryMarker : String := "<task_summary>"

/-- The `onResponse` lifecycle hook of the coding agent
(`src/inngest/functions.ts`): extract the last assistant message text; when
it is defined and contains `<task_summary>`, store it as the state's
summary; always return the result (the message list) unmodified. The pair
is (state after the hook, returned result). -/
def onResponse (output : List AgentMessage) (st : AgentState) :
    AgentState × List AgentMessage :=
  match lastAgentTextMessageContent output with
  | some t => if jsIncludes t taskSummaryMarker then ({ st with summary := t }, output)
              else (st, output)
  | none => (st, output)

/-- The network router (`src/inngest/functions.ts`, `createNetwork`): halt
(no agent) when the state's summary is truthy, otherwise continue with the
coding agent. The single coding agent is modelled as `Unit`. -/
def router (st : AgentState) : Option Unit :=
  if st.summary ≠ "" then none else some ()

/-- The `maxIter` configured on the network. -/
def maxIter : Nat := 15

/-- Modelled from the spec: the agent-kit network loop is not in this
repository; per the spec it "runs an iterative agent loop bounded by a
maximum iteration count" in which "a router repeatedly selects an agent
(or halts) based on mutable shared state". Each remaining iteration asks
`router`; on no agent the loop stops, otherwise one execution of the
coding agent (an arbitrary state transformer `agentStep`) runs and is
counted. Returns the final state and the number of agent executions. -/
def networkLoop (agentStep : AgentState → AgentState) :
    Nat → AgentState → Nat → AgentState × Nat
  | 0, st, count => (st, count)
  | n + 1, st, count =>
    match router st with
    | none => (st, count)
    | some _ => networkLoop agentStep n (agentStep st) (count + 1)

/-- `network.run`: the loop started with `maxIter` remaining iterations and
zero executions so far. -/
def networkRun (agentStep : AgentState → AgentState) (init : AgentState) :
    AgentState × Nat :=
  networkLoop agentStep maxIter init 0

/-- One entry of the `files` parameter of the `createOrUpdateFiles` tool. -/
structure FileEntry where
  path : String
  content : String
deriving DecidableEq, Repr

/-- The write loop of the `createOrUpdateFiles` handler: for each entry,
`sandbox.files.write(file.path, file.content)` on the sandbox map and
`updatedFiles[file.path] = file.content` on the state map are the same
assignment, so one fold serves both. -/
def writeAll (fs : List FileEntry) (m : FileMap) : FileMap :=
  fs.foldl (fun acc f => acc.set f.path f.content) m

/-- The success path of the `createOrUpdateFiles` tool handler
(`src/inngest/functions.ts`): every listed file is written to the sandbox
file system, the updated map is returned from the step, and (being an
object) is stored back into `network.state.data.files`. Result: the new
sandbox file system and the new agent state. On a sandbox error the step
returns an error string instead and the state assignment is skipped; the
claims below concern the successful call, embedded here. -/
def createOrUpdateFiles (fs : List FileEntry) (sandboxFs : FileMap)
    (st : AgentState) : FileMap × AgentState :=
  let newSandboxFs := writeAll fs sandboxFs
  let newFiles := writeAll fs st.files
  (newSandboxFs, { st with files := newFiles })

/-- Database message role (`role` column). -/
inductive DbRole where
  | USER
  | ASSISTANT
deriving DecidableEq, Repr

/-- Database message type (`type` column). -/
inductive DbMsgType where
  | RESULT
  | ERROR
deriving DecidableEq, Repr

/-- A `fragment` row attached to a result message: preview URL, generated
title and the complete file map. -/
structure Fragment where
  sandboxUrl : String
  title : String
  files : FileMap
deriving DecidableEq, Repr

/-- A `message` row as written by the pipeline. -/
structure MessageRow where
  projectId : String
  content : String
  role : DbRole
  type : DbMsgType
  fragment : Option Fragment
deriving DecidableEq, Repr

/-- The `save-result` step (`src/inngest/functions.ts`): `isError` is
"summary falsy or the file map has no keys"; on error an ASSISTANT/ERROR
message with the fixed content is written, otherwise an ASSISTANT/RESULT
message whose content is `parseAgentOutput(responseOutput)` and whose
fragment holds the sandbox URL, `parseAgentOutput(fragmentTitleOutput)`
and the file map. `parseAgentOutput` can raise (empty generator output);
the raise propagates out of the step. -/
def saveResult (projectId : String) (summary : String) (files : FileMap)
    (sandboxUrl : String) (fragmentTitleOutput responseOutput : List AgentMessage) :
    Except JsError MessageRow :=
  if summary = "" ∨ files.keys.length = 0 then
    .ok { projectId := projectId
          content := "Something went wrong. Please try again."
          role := .ASSISTANT
          type := .ERROR
          fragment := none }
  else
    match parseAgentOutput responseOutput with
    | .error e => .error e
    | .ok content =>
      match parseAgentOutput fragmentTitleOutput with
      | .error e => .error e
      | .ok title =>
        .ok { projectId := projectId
              content := content
              role := .ASSISTANT
              type := .RESULT
              fragment := some { sandboxUrl := sandboxUrl, title := title, files := files } }

/-- Observable outcome of the part of `codeAgentFunction` that follows
`network.run`: how often each auxiliary agent was run and with what input,
and the message the `save-result` step writes. -/
structure PostNetworkOutcome where
  titleGenRuns : Nat
  responseGenRuns : Nat
  titleGenInput : String
  responseGenInput : String
  saved : Except JsError MessageRow
deriving Repr

/-- Steps 7-9 of `codeAgentFunction` (`src/inngest/functions.ts`): the
fragment-title generator and the response generator are each run once on
`result.state.data.summary` (unconditionally, before `isError` is
consulted), then the sandbox URL is read and `save-result` writes the
message. -/
def codeAgentPostNetwork (projectId : String) (summary : String) (files : FileMap)
    (sandboxUrl : String) (fragmentTitleOutput responseOutput : List AgentMessage) :
    PostNetworkOutcome :=
  { titleGenRuns := 1
    responseGenRuns := 1
    titleGenInput := summary
    responseGenInput := summary
    saved := saveResult projectId summary files sandboxUrl fragmentTitleOutput responseOutput }

/-- A stored `message` row as read back by the `get-previous-messages` step
(`createdAt` modelled as a numeric timestamp). -/
structure StoredMessage where
  projectId : String
  content : String
  role : DbRole
  createdAt : Nat
deriving DecidableEq, Repr

/-- The per-row conversion of `get-previous-messages`: a text agent message
whose role is "assistant" exactly for stored role ASSISTANT and "user"
otherwise, carrying the stored content. -/
def toAgentMessage (m : StoredMessage) : AgentMessage :=
  { type := "text"
    role := if m.role = DbRole.ASSISTANT then "assistant" else "user"
    content := .str m.content }

/-- The `get-previous-messages` step (`src/inngest/functions.ts`): the query
returns the project's messages ordered by `createdAt` descending with
`take: 5`; the step converts each row and reverses the list to restore
chronological order. `queryDesc` is the project's full message list in the
query's descending order; the `take 5` embeds the query's limit. -/
def getPreviousMessages (queryDesc : List StoredMessage) : List AgentMessage :=
  ((queryDesc.take 5).map toAgentMessage).reverse

/-- tRPC error codes thrown by the projects router. -/
inductive TrpcErrorCode where
  | BAD_REQUEST
  | TOO_MANY_REQUESTS
  | NOT_FOUND
  | UNAUTHORIZED
deriving DecidableEq, Repr

/-- A `project` row. -/
structure ProjectRow where
  id : String
  userId : String
  name : String
  updatedAt : Nat
deriving DecidableEq, Repr

/-- An inngest event sent with `inngest.send` by `projects.create`. -/
structure EventRow where
  name : String
  value : String
  projectId : String
deriving DecidableEq, Repr

/-- The persistent state `projects.create` touches: project rows, message
rows, sent events, the usage points consumed by the rate limiter, and a
trace of the side-effecting calls in execution order. -/
structure Db where
  projects : List ProjectRow
  messages : List MessageRow
  events : List EventRow
  creditsUsed : Nat
  trace : List String
deriving DecidableEq, Repr

/-- Outcome of `consumeCredits` (`src/lib/usage.ts`): success, rejection by
the rate limiter (a `RateLimiterRes`, not an `Error` instance — the user
is out of credits), or a rejection that is an `Error` instance. -/
inductive CreditOutcome where
  | ok
  | rateLimited
  | errorFailure
deriving DecidableEq, Repr

/-- `projects.create` (`src/modules/projects/server/procedures.ts`): zod
validates `value` (1 to 10000 characters); `consumeCredits()` runs and a
rejection maps to BAD_REQUEST when it is an `Error` and TOO_MANY_REQUESTS
otherwise; then one project row is created with a nested initial message
(content = prompt, role USER, type RESULT), one "code-agent/run" event is
sent with the prompt and the new project's id, and the created project is
returned. `newProjectId`, `slug` and `now` stand for the id the database
generates, `generateSlug(2)` and the row timestamp. -/
def projectsCreate (outcome : CreditOutcome) (userId : String)
    (newProjectId slug : String) (now : Nat) (value : String) (db : Db) :
    Db × Except TrpcErrorCode ProjectRow :=
  if value.length < 1 ∨ value.length > 10000 then (db, .error .BAD_REQUEST)
  else
    match outcome with
    | .errorFailure => (db, .error .BAD_REQUEST)
    | .rateLimited => (db, .error .TOO_MANY_REQUESTS)
    | .ok =>
      let db1 := { db with creditsUsed := db.creditsUsed + 1
                           trace := db.trace ++ ["consumeCredits"] }
      let proj : ProjectRow :=
        { id := newProjectId, userId := userId, name := slug, updatedAt := now }
      let msg : MessageRow :=
        { projectId := newProjectId, content := value, role := .USER
          type := .RESULT, fragment := none }
      let db2 := { db1 with projects := db1.projects ++ [proj]
                            messages := db1.messages ++ [msg]
                            trace := db1.trace ++ ["prisma.project.create"] }
      let db3 := { db2 with events := db2.events ++
                     [{ name := "code-agent/run", value := value, projectId := newProjectId }]
                            trace := db2.trace ++ ["inngest.send"] }
      (db3, .ok proj)

/-- `prisma.project.findUnique` with a compound `where` on id and userId:
the row matching both, if any. -/
def findUniqueProject (projects : List ProjectRow) (id userId : String) :
    Option ProjectRow :=
  projects.find? (fun p => p.id == id && p.userId == userId)

/-- `projects.getOne`: zod requires a non-empty id; the project is looked
up by id restricted to the caller's userId, and NOT_FOUND is thrown when
nothing matches. -/
def getOne (projects : List ProjectRow) (userId : String) (inputId : String) :
    Except TrpcErrorCode ProjectRow :=
  if inputId.length < 1 then .error .BAD_REQUEST
  else
    match findUniqueProject projects inputId userId with
    | none => .error .NOT_FOUND
    | some p => .ok p

/-- Insertion step of the `orderBy updatedAt asc` sort. -/
def insertByUpdatedAt (p : ProjectRow) : List ProjectRow → List ProjectRow
  | [] => [p]
  | q :: rest =>
    if p.updatedAt ≤ q.updatedAt then p :: q :: rest
    else q :: insertByUpdatedAt p rest

/-- `orderBy: updatedAt asc` as an insertion sort. -/
def sortByUpdatedAtAsc : List ProjectRow → List ProjectRow
  | [] => []
  | p :: rest => insertByUpdatedAt p (sortByUpdatedAtAsc rest)

/-- `projects.getMany`: all rows whose userId is the caller's, ordered by
`updatedAt` ascending. -/
def getMany (projects : List ProjectRow) (userId : String) : List ProjectRow :=
  sortByUpdatedAtAsc (projects.filter (fun p => p.userId == userId))

/-- The claim's reading of the `onResponse` hook (for comparison with the
code): the content of the last assistant message that IS a text message,
whereas the code takes the last assistant-role message of any type and
casts it. -/
def lastAssistantTextContentClaim (output : List AgentMessage) : Option String :=
  match output.reverse.find? (fun m => m.role == "assistant" && m.type == "text") with
  | none => none
  | some m => some m.content.toText

/-! ### Helper lemmas -/

theorem FileMap.lookup_set_self (m : FileMap) (k v : String) :
    (m.set k v).lookup k = some v := by
  induction m with
  | nil => simp [FileMap.set, FileMap.lookup]
  | cons hd rest ih =>
    obtain ⟨k', v'⟩ := hd
    by_cases hk : k = k'
    · simp [FileMap.set, hk, FileMap.lookup]
    · simp [FileMap.set, hk, FileMap.lookup, ih]

theorem FileMap.lookup_set_ne (m : FileMap) (k v p : String) (h : p ≠ k) :
    (m.set k v).lookup p = m.lookup p := by
  induction m with
  | nil => simp [FileMap.set, FileMap.lookup, h]
  | cons hd rest ih =>
    obtain ⟨k', v'⟩ := hd
    by_cases hk : k = k'
    · subst hk
      simp [FileMap.set, FileMap.lookup, h]
    · by_cases hp : p = k'
      · simp [FileMap.set, hk, FileMap.lookup, hp]
      · simp [FileMap.set, hk, FileMap.lookup, hp, ih]

theorem writeAll_cons (f : FileEntry) (fs : List FileEntry) (m : FileMap) :
    writeAll (f :: fs) m = writeAll fs (m.set f.path f.content) := rfl

theorem lookup_writeAll_not_mem (fs : List FileEntry) (m : FileMap) (p : String)
    (hp : p ∉ fs.map FileEntry.path) :
    (writeAll fs m).lookup p = m.lookup p := by
  induction fs generalizing m with
  | nil => rfl
  | cons f rest ih =>
    have hne : p ≠ f.path := by
      intro hcontra
      exact hp (by simp [hcontra])
    have hrest : p ∉ rest.map FileEntry.path := fun hmem => hp (by simp [hmem])
    rw [writeAll_cons, ih _ hrest, FileMap.lookup_set_ne _ _ _ _ hne]

theorem lookup_writeAll_mem (fs : List FileEntry) (m : FileMap)
    (hnd : (fs.map FileEntry.path).Nodup) (e : FileEntry) (he : e ∈ fs) :
    (writeAll fs m).lookup e.path = some e.content := by
  induction fs generalizing m with
  | nil => cases he
  | cons f rest ih =>
    rw [List.map_cons] at hnd
    obtain ⟨h1, h2⟩ := List.nodup_cons.mp hnd
    rw [writeAll_cons]
    rcases List.mem_cons.mp he with rfl | hmem
    · rw [lookup_writeAll_not_mem _ _ _ h1, FileMap.lookup_set_self]
    · exact ih _ h2 hmem

theorem networkLoop_count_le (agentStep : AgentState → AgentState)
    (n : Nat) (st : AgentState) (c : Nat) :
    (networkLoop agentStep n st c).2 ≤ c + n := by
  induction n generalizing st c with
  | zero => simp [networkLoop]
  | succ k ih =>
    unfold networkLoop
    cases router st with
    | none => simp
    | some a =>
      calc (networkLoop agentStep k (agentStep st) (c + 1)).2 ≤ (c + 1) + k := ih _ _
        _ = c + (k + 1) := by omega

/-! ### Claim theorems -/

/-- C4: the agent network's loop terminates: whatever the coding agent does
to the state, it is executed at most 15 times (`maxIter`), and the router
returns no agent (halting the loop) exactly when the shared state's
summary is non-empty, returning the coding agent in every other case. -/
theorem network_loop_bounded_and_router_halts
    (agentStep : AgentState → AgentState) (init st : AgentState) :
    (networkRun agentStep init).2 ≤ 15 ∧
    (router st = none ↔ st.summary ≠ "") ∧
    (st.summary = "" → router st = some ()) := by
  refine ⟨?_, ?_, ?_⟩
  · have h := networkLoop_count_le agentStep maxIter init 0
    simpa [networkRun, maxIter] using h
  · by_cases h : st.summary = "" <;> simp [router, h]
  · intro h
    simp [router, h]

/-- C4 witness: at the empty initial state the router selects the coding
agent, and a run with the identity agent executes it at most 15 times. -/
theorem network_loop_bounded_and_router_halts_witness :
    router ⟨"", []⟩ = some () :=
  (network_loop_bounded_and_router_halts id ⟨"", []⟩ ⟨"", []⟩).2.2 rfl

/-- C5: a successful `createOrUpdateFiles` call with file list `fs` (paths
pairwise distinct) writes every file of `fs` to the sandbox, and afterwards
the shared state's file map sends each path of `fs` to its new content
while every path not listed in `fs` keeps exactly its previous content;
the rest of the state (the summary) is untouched. -/
theorem createOrUpdateFiles_writes_and_frame (fs : List FileEntry)
    (sandboxFs : FileMap) (st : AgentState)
    (hnd : (fs.map FileEntry.path).Nodup) :
    (∀ e ∈ fs,
      ((createOrUpdateFiles fs sandboxFs st).1).lookup e.path = some e.content ∧
      ((createOrUpdateFiles fs sandboxFs st).2).files.lookup e.path = some e.content) ∧
    (∀ p, p ∉ fs.map FileEntry.path →
      ((createOrUpdateFiles fs sandboxFs st).2).files.lookup p = st.files.lookup p ∧
      ((createOrUpdateFiles fs sandboxFs st).1).lookup p = sandboxFs.lookup p) ∧
    ((createOrUpdateFiles fs sandboxFs st).2).summary = st.summary := by
  refine ⟨?_, ?_, rfl⟩
  · intro e he
    exact ⟨lookup_writeAll_mem fs sandboxFs hnd e he,
           lookup_writeAll_mem fs st.files hnd e he⟩
  · intro p hp
    exact ⟨lookup_writeAll_not_mem fs st.files p hp,
           lookup_writeAll_not_mem fs sandboxFs p hp⟩

/-- C5 witness: writing `a.txt` into a state that already holds `b.txt`
updates `a.txt` in sandbox and state and leaves `b.txt` untouched. -/
theorem createOrUpdateFiles_writes_and_frame_witness :
    ((createOrUpdateFiles [⟨"a.txt", "A"⟩] [] ⟨"", [("b.txt", "B")]⟩).1).lookup "a.txt"
      = some "A" ∧
    ((createOrUpdateFiles [⟨"a.txt", "A"⟩] [] ⟨"", [("b.txt", "B")]⟩).2).files.lookup "b.txt"
      = some "B" :=
  ⟨((createOrUpdateFiles_writes_and_frame [⟨"a.txt", "A"⟩] [] ⟨"", [("b.txt", "B")]⟩
      (by decide)).1 ⟨"a.txt", "A"⟩ (by decide)).1,
   (((createOrUpdateFiles_writes_and_frame [⟨"a.txt", "A"⟩] [] ⟨"", [("b.txt", "B")]⟩
      (by decide)).2.1 "b.txt" (by decide)).1).trans (by decide)⟩

/-- C1: the `save-result` step persists exactly one assistant message per
run: an ERROR message with the fixed content exactly when the final
summary is empty or the final file map has no entries, and otherwise a
RESULT message whose fragment holds the sandbox preview URL, the
generated title and the complete file map. The two generator outputs are
assumed to parse (they are non-empty text output; an empty output would
instead raise, see the `parseAgentOutput` theorems). -/
theorem saveResult_message_spec (pid summary : String) (files : FileMap)
    (url : String) (tout rout : List AgentMessage) :
    ((summary = "" ∨ files.keys.length = 0) →
      saveResult pid summary files url tout rout =
        .ok ⟨pid, "Something went wrong. Please try again.", .ASSISTANT, .ERROR, none⟩) ∧
    (summary ≠ "" → files.keys.length ≠ 0 →
      ∀ t c, parseAgentOutput tout = .ok t → parseAgentOutput rout = .ok c →
        saveResult pid summary files url tout rout =
          .ok ⟨pid, c, .ASSISTANT, .RESULT, some ⟨url, t, files⟩⟩) ∧
    (∀ m, saveResult pid summary files url tout rout = .ok m →
      m.role = .ASSISTANT ∧
      (m.type = .ERROR ↔ (summary = "" ∨ files.keys.length = 0)) ∧
      (m.type = .ERROR → m.content = "Something went wrong. Please try again." ∧
        m.fragment = none) ∧
      (m.type = .RESULT → ∃ t c, parseAgentOutput tout = .ok t ∧
        parseAgentOutput rout = .ok c ∧ m.content = c ∧
        m.fragment = some ⟨url, t, files⟩)) := by
  by_cases hcond : summary = "" ∨ files.keys.length = 0
  · refine ⟨fun _ => by unfold saveResult; rw [if_pos hcond], ?_, ?_⟩
    · intro h1 h2 t c _ _
      rcases hcond with h | h
      · exact absurd h h1
      · exact absurd h h2
    · intro m hm
      unfold saveResult at hm
      rw [if_pos hcond] at hm
      cases hm
      refine ⟨rfl, by simpa using hcond, fun _ => ⟨rfl, rfl⟩, fun hres => ?_⟩
      cases hres
  · refine ⟨fun h => absurd h hcond, ?_, ?_⟩
    · intro _ _ t c ht hr
      unfold saveResult
      rw [if_neg hcond, hr, ht]
    · intro m hm
      unfold saveResult at hm
      rw [if_neg hcond] at hm
      cases hr : parseAgentOutput rout with
      | error e => rw [hr] at hm; cases hm
      | ok c =>
        rw [hr] at hm
        cases ht : parseAgentOutput tout with
        | error e => rw [ht] at hm; cases hm
        | ok t =>
          rw [ht] at hm
          cases hm
          refine ⟨rfl, by simpa using hcond, fun herr => ?_, fun _ => ⟨t, c, rfl, rfl, rfl, rfl⟩⟩
          cases herr

/-- C1 witness: a run with a non-empty summary and a one-file map persists
the RESULT message with the parsed title and response and the file map. -/
theorem saveResult_message_spec_witness :
    saveResult "p1" "did it" [("app.tsx", "code")] "https://host"
        [⟨"text", "assistant", .str "Title"⟩] [⟨"text", "assistant", .str "Resp"⟩] =
      .ok ⟨"p1", "Resp", .ASSISTANT, .RESULT,
        some ⟨"https://host", "Title", [("app.tsx", "code")]⟩⟩ :=
  (saveResult_message_spec "p1" "did it" [("app.tsx", "code")] "https://host"
      [⟨"text", "assistant", .str "Title"⟩] [⟨"text", "assistant", .str "Resp"⟩]).2.1
    (by decide) (by decide) "Title" "Resp" rfl rfl

/-- C2: for an authenticated caller and a prompt of length 1 to 10000, a
`projects.create` call whose credit consumption succeeds performs, in
this order (see the trace), one credit consumption, the creation of one
project owned by the caller with one nested initial message (content =
prompt, role USER, type RESULT), and the send of one "code-agent/run"
event carrying the prompt and the new project's id; the created project
is returned. -/
theorem projectsCreate_success_effects (userId newProjectId slug : String)
    (now : Nat) (value : String) (db : Db)
    (hlen1 : 1 ≤ value.length) (hlen2 : value.length ≤ 10000) :
    projectsCreate .ok userId newProjectId slug now value db =
      ({ projects := db.projects ++ [⟨newProjectId, userId, slug, now⟩]
         messages := db.messages ++ [⟨newProjectId, value, .USER, .RESULT, none⟩]
         events := db.events ++ [⟨"code-agent/run", value, newProjectId⟩]
         creditsUsed := db.creditsUsed + 1
         trace := db.trace ++ ["consumeCredits", "prisma.project.create", "inngest.send"] },
       .ok ⟨newProjectId, userId, slug, now⟩) := by
  have h : ¬(value.length < 1 ∨ value.length > 10000) := by omega
  unfold projectsCreate
  rw [if_neg h]
  simp

/-- C2 witness: a concrete successful creation on an empty database. -/
theorem projectsCreate_success_effects_witness :
    projectsCreate .ok "user1" "proj1" "happy-turtle" 7 "make an app" ⟨[], [], [], 0, []⟩ =
      (⟨[⟨"proj1", "user1", "happy-turtle", 7⟩],
        [⟨"proj1", "make an app", .USER, .RESULT, none⟩],
        [⟨"code-agent/run", "make an app", "proj1"⟩], 1,
        ["consumeCredits", "prisma.project.create", "inngest.send"]⟩,
       .ok ⟨"proj1", "user1", "happy-turtle", 7⟩) := by
  have h := projectsCreate_success_effects "user1" "proj1" "happy-turtle" 7
    "make an app" ⟨[], [], [], 0, []⟩ (by decide) (by decide)
  simpa using h

/-- C3: when the credit-based quota check fails, `projects.create` throws
TOO_MANY_REQUESTS on a rate-limiter rejection (the caller ran out of
credits) and BAD_REQUEST when the rejection is an `Error`, and in both
cases the state is returned unchanged: no project row, no message row, no
event, no credit consumed. -/
theorem projectsCreate_quota_failure_no_writes (userId newProjectId slug : String)
    (now : Nat) (value : String) (db : Db)
    (hlen1 : 1 ≤ value.length) (hlen2 : value.length ≤ 10000) :
    projectsCreate .rateLimited userId newProjectId slug now value db =
      (db, .error .TOO_MANY_REQUESTS) ∧
    projectsCreate .errorFailure userId newProjectId slug now value db =
      (db, .error .BAD_REQUEST) := by
  have h : ¬(value.length < 1 ∨ value.length > 10000) := by omega
  constructor
  · unfold projectsCreate
    rw [if_neg h]
  · unfold projectsCreate
    rw [if_neg h]

/-- C3 witness: a concrete out-of-credits call leaves the database as it
was and reports TOO_MANY_REQUESTS. -/
theorem projectsCreate_quota_failure_no_writes_witness :
    projectsCreate .rateLimited "user1" "proj1" "slug" 7 "make an app" ⟨[], [], [], 3, []⟩ =
      (⟨[], [], [], 3, []⟩, .error .TOO_MANY_REQUESTS) :=
  (projectsCreate_quota_failure_no_writes "user1" "proj1" "slug" 7 "make an app"
    ⟨[], [], [], 3, []⟩ (by decide) (by decide)).1

/-- C6 counterexample: when the last assistant-role message is a tool call
and the preceding assistant text message contains the marker, the claim
says the summary is set to that text content, but the hook reads the
tool-call message (whose content is undefined) and leaves the summary
unchanged. -/
theorem onResponse_last_text_counterexample :
    lastAssistantTextContentClaim
        [⟨"text", "assistant", .str "<task_summary> built it"⟩,
         ⟨"tool_call", "assistant", .undef⟩] =
      some "<task_summary> built it" ∧
    jsIncludes "<task_summary> built it" taskSummaryMarker = true ∧
    (onResponse
        [⟨"text", "assistant", .str "<task_summary> built it"⟩,
         ⟨"tool_call", "assistant", .undef⟩]
        ⟨"", []⟩).1.summary = "" := by
  refine ⟨rfl, ?_, rfl⟩
  decide

/-- C6 amended: the hook reads the LAST ASSISTANT-ROLE message cast to a
text message (`lastAgentTextMessageContent`): when that value is defined
and contains "<task_summary>" the summary is set to it, in every other
case the state is unchanged, and the result is always returned
unmodified. -/
theorem onResponse_marker_amended (output : List AgentMessage) (st : AgentState) :
    ((onResponse output st).2 = output) ∧
    (∀ t, lastAgentTextMessageContent output = some t →
      (jsIncludes t taskSummaryMarker = true →
        (onResponse output st).1 = { st with summary := t }) ∧
      (jsIncludes t taskSummaryMarker = false →
        (onResponse output st).1 = st)) ∧
    (lastAgentTextMessageContent output = none → (onResponse output st).1 = st) := by
  refine ⟨?_, ?_, ?_⟩
  · unfold onResponse
    cases h : lastAgentTextMessageContent output with
    | none => rfl
    | some t0 =>
      by_cases hj : jsIncludes t0 taskSummaryMarker = true
      · simp [hj]
      · simp [hj]
  · intro t ht
    unfold onResponse
    rw [ht]
    constructor
    · intro hj
      simp [hj]
    · intro hj
      simp [hj]
  · intro hnone
    unfold onResponse
    rw [hnone]

/-- C6 amended witness: a single assistant text message containing the
marker sets the summary to its content. -/
theorem onResponse_marker_amended_witness :
    (onResponse [⟨"text", "assistant", .str "<task_summary> ok"⟩] ⟨"", []⟩).1 =
      ⟨"<task_summary> ok", []⟩ :=
  ((onResponse_marker_amended [⟨"text", "assistant", .str "<task_summary> ok"⟩]
      ⟨"", []⟩).2.1 "<task_summary> ok" rfl).1 (by decide)

/-- C7 counterexample: on a run whose final summary is empty (the loop
ended without signalling completion), the title and response generators
are nevertheless each run once. -/
theorem generators_run_on_empty_summary :
    (codeAgentPostNetwork "p1" "" [] "https://host" [] []).titleGenRuns = 1 ∧
    (codeAgentPostNetwork "p1" "" [] "https://host" [] []).responseGenRuns = 1 :=
  ⟨rfl, rfl⟩

/-- C7 amended: the display-title generator and the response generator are
invoked exactly once per run, each on the final summary, regardless of
whether the loop signalled completion (i.e. also when the summary is
empty); only the persisted message depends on the error condition. -/
theorem generators_always_run_once (pid summary : String) (files : FileMap)
    (url : String) (tout rout : List AgentMessage) :
    (codeAgentPostNetwork pid summary files url tout rout).titleGenRuns = 1 ∧
    (codeAgentPostNetwork pid summary files url tout rout).responseGenRuns = 1 ∧
    (codeAgentPostNetwork pid summary files url tout rout).titleGenInput = summary ∧
    (codeAgentPostNetwork pid summary files url tout rout).responseGenInput = summary ∧
    (codeAgentPostNetwork pid summary files url tout rout).saved =
      saveResult pid summary files url tout rout :=
  ⟨rfl, rfl, rfl, rfl, rfl⟩

/-- C10 counterexample: on the empty message list `parseAgentOutput` reads
`value[0].type` of `undefined` and raises a TypeError instead of
returning a string. -/
theorem parseAgentOutput_empty_typeerror :
    parseAgentOutput [] = .error .typeErrorUndefined := rfl

/-- C10 amended: on every NON-EMPTY message list (whose first message, if a
text message, carries content — guaranteed by the TypeScript types),
`parseAgentOutput` returns a string: the first message's content (array
elements joined with the empty string) when the first message is a text
message, and "Fragment" otherwise; on the empty list it raises. -/
theorem parseAgentOutput_nonempty_total (m : AgentMessage) (rest : List AgentMessage)
    (hwf : m.type = "text" → m.content ≠ .undef) :
    parseAgentOutput (m :: rest) =
      .ok (if m.type = "text" then m.content.toText else "Fragment") := by
  by_cases ht : m.type = "text"
  · cases hc : m.content with
    | str s => simp [parseAgentOutput, ht, hc, MsgContent.toText]
    | arr l => simp [parseAgentOutput, ht, hc, MsgContent.toText]
    | undef => exact absurd hc (hwf ht)
  · simp [parseAgentOutput, ht]

/-- C10 amended witness: a singleton text message parses to its content. -/
theorem parseAgentOutput_nonempty_total_witness :
    parseAgentOutput [⟨"text", "assistant", .str "hello"⟩] = .ok "hello" := by
  have h := parseAgentOutput_nonempty_total ⟨"text", "assistant", .str "hello"⟩ []
    (fun _ => by decide)
  simpa using h

/-- C8: on the project's messages in the query's descending `createdAt`
order, the `get-previous-messages` step returns at most 5 messages — the
most recently created ones — in chronological order (oldest first), each
converted to a text agent message whose role is "assistant" exactly when
the stored role is ASSISTANT and "user" otherwise. -/
theorem getPreviousMessages_spec (queryDesc : List StoredMessage)
    (hsorted : queryDesc.Pairwise (fun a b => b.createdAt ≤ a.createdAt)) :
    (getPreviousMessages queryDesc).length ≤ 5 ∧
    getPreviousMessages queryDesc = ((queryDesc.take 5).reverse).map toAgentMessage ∧
    ((queryDesc.take 5).reverse).Pairwise (fun a b => a.createdAt ≤ b.createdAt) ∧
    (∀ m ∈ queryDesc.drop 5, ∀ x ∈ queryDesc.take 5, m.createdAt ≤ x.createdAt) ∧
    (∀ m : StoredMessage,
      ((toAgentMessage m).role = "assistant" ↔ m.role = DbRole.ASSISTANT) ∧
      (toAgentMessage m).type = "text" ∧
      (toAgentMessage m).content = .str m.content) := by
  refine ⟨?_, ?_, ?_, ?_, ?_⟩
  · simp [getPreviousMessages]
  · simp [getPreviousMessages, List.map_reverse]
  · rw [List.pairwise_reverse]
    exact List.Pairwise.sublist (List.take_sublist 5 queryDesc) hsorted
  · have hsplit := hsorted
    rw [← List.take_append_drop 5 queryDesc, List.pairwise_append] at hsplit
    intro m hm x hx
    exact hsplit.2.2 x hx m hm
  · intro m
    refine ⟨?_, rfl, rfl⟩
    cases hr : m.role <;> simp [toAgentMessage, hr]

/-- C8 witness: two stored messages in descending order come back oldest
first and at most five long. -/
theorem getPreviousMessages_spec_witness :
    (getPreviousMessages
        [⟨"p", "answer", .ASSISTANT, 10⟩, ⟨"p", "build it", .USER, 5⟩]).length ≤ 5 :=
  (getPreviousMessages_spec
    [⟨"p", "answer", .ASSISTANT, 10⟩, ⟨"p", "build it", .USER, 5⟩] (by decide)).1

theorem mem_insertByUpdatedAt (p q : ProjectRow) (l : List ProjectRow) :
    q ∈ insertByUpdatedAt p l ↔ q = p ∨ q ∈ l := by
  induction l with
  | nil => simp [insertByUpdatedAt]
  | cons r rest ih =>
    by_cases h : p.updatedAt ≤ r.updatedAt
    · simp [insertByUpdatedAt, h]
    · simp only [insertByUpdatedAt, if_neg h, List.mem_cons, ih]
      tauto

theorem mem_sortByUpdatedAtAsc (q : ProjectRow) (l : List ProjectRow) :
    q ∈ sortByUpdatedAtAsc l ↔ q ∈ l := by
  induction l with
  | nil => simp [sortByUpdatedAtAsc]
  | cons r rest ih =>
    simp [sortByUpdatedAtAsc, mem_insertByUpdatedAt, ih]

/-- C9: `projects.getOne` returns only a project that exists, is the
requested one and is owned by the caller, and throws NOT_FOUND whenever
the caller owns no project with the given (non-empty) id; `projects.getMany`
returns only projects owned by the caller. A project belonging to another
user is never returned. -/
theorem projects_read_ownership (projects : List ProjectRow) (userId inputId : String) :
    (∀ p, getOne projects userId inputId = .ok p →
      p.userId = userId ∧ p.id = inputId ∧ p ∈ projects) ∧
    ((∀ p ∈ projects, ¬(p.id = inputId ∧ p.userId = userId)) → 1 ≤ inputId.length →
      getOne projects userId inputId = .error .NOT_FOUND) ∧
    (∀ p ∈ getMany projects userId, p.userId = userId) := by
  refine ⟨?_, ?_, ?_⟩
  · intro p hp
    unfold getOne at hp
    by_cases hlen : inputId.length < 1
    · rw [if_pos hlen] at hp
      cases hp
    · rw [if_neg hlen] at hp
      cases hfind : findUniqueProject projects inputId userId with
      | none => rw [hfind] at hp; cases hp
      | some p0 =>
        rw [hfind] at hp
        cases hp
        unfold findUniqueProject at hfind
        have hpred := List.find?_some hfind
        have hmem := List.mem_of_find?_eq_some hfind
        simp only [Bool.and_eq_true, beq_iff_eq] at hpred
        exact ⟨hpred.2, hpred.1, hmem⟩
  · intro hnone hlen
    unfold getOne
    rw [if_neg (by omega : ¬inputId.length < 1)]
    have hfind : findUniqueProject projects inputId userId = none := by
      unfold findUniqueProject
      rw [List.find?_eq_none]
      intro p hp
      have := hnone p hp
      simp only [Bool.and_eq_true, beq_iff_eq]
      tauto
    rw [hfind]
  · intro p hp
    unfold getMany at hp
    rw [mem_sortByUpdatedAtAsc] at hp
    have := (List.mem_filter.mp hp).2
    simpa using this

/-- C9 witness: a project owned by a different user is reported NOT_FOUND. -/
theorem projects_read_ownership_witness :
    getOne [⟨"p1", "u2", "name", 0⟩] "u1" "p1" = .error .NOT_FOUND :=
  (projects_read_ownership [⟨"p1", "u2", "name", 0⟩] "u1" "p1").2.1
    (by decide) (by decide)
